import Mathlib

/-!
Verification of `src/pptx/text/fonts.py` (system font file lookup).

The Python module is shallowly embedded below.  Bytes are modelled as
`List Nat` (each entry a byte value), Python exceptions as the inductive
`PyErr` carried in `Except`, the open binary file of `_Stream` as a pair of
contents and a read cursor, and the class-level `FontFiles._font_files`
cache as an explicit `Option FontMap` threaded through `FontFiles.find`.
External collaborators (`sys.platform`, `os.environ['HOME']`, `os.walk`,
the current working directory used by `os.path.abspath`, and the behaviour
of `_Font` on a given file path) are bundled in an `Env` record, since the
source consults them through the operating system.
-/

set_option autoImplicit false

deriving instance DecidableEq for Except

namespace Fonts

/-- Python exceptions raised (or raisable) by the module: `KeyError` from a
dict lookup, `NotImplementedError` from the stubs, `OSError` from
`_font_directories`, `struct.error` from a too-short `unpack_from`
buffer, and `AttributeError` from reading the `is_bold`/`is_italic`
attributes `_Font` never defines. -/
inductive PyErr where
  | keyError
  | notImplementedError
  | osError (msg : String)
  | structError
  | attributeError
  deriving DecidableEq, Repr

/-- Big-endian value of a byte sequence, as decoded by `struct.unpack_from`
for multi-byte unsigned fields. -/
def beVal (bs : List Nat) : Nat :=
  bs.foldl (fun a b => a * 256 + b) 0

/-- Slice `length` bytes of `data` starting at `offset`. -/
def byteSlice (data : List Nat) (offset length : Nat) : List Nat :=
  (data.drop offset).take length

/-- One field of a `struct` template: `4s` (4-byte string), `H` (big-endian
u16) or `L` (big-endian u32). -/
inductive FieldSpec where
  | s4
  | u16
  | u32
  deriving DecidableEq, Repr

/-- Byte width of one template field. -/
def FieldSpec.size : FieldSpec → Nat
  | .s4 => 4
  | .u16 => 2
  | .u32 => 4

/-- Decoded value of one template field: raw bytes for `4s`, a number for
`H` and `L`. -/
inductive FieldVal where
  | bytes (bs : List Nat)
  | num (n : Nat)
  deriving DecidableEq, Repr

/-- Width in bytes of a whole template, as `struct.calcsize`. -/
def calcsize (tmpl : List FieldSpec) : Nat :=
  (tmpl.map FieldSpec.size).sum

/-- Decode the fields of `tmpl` from `bufr` starting at `offset`, without
the buffer-length check (the caller performs it once). -/
def unpackLoop (bufr : List Nat) : List FieldSpec → Nat → List FieldVal
  | [], _ => []
  | .s4 :: rest, offset => .bytes (byteSlice bufr offset 4) :: unpackLoop bufr rest (offset + 4)
  | .u16 :: rest, offset => .num (beVal (byteSlice bufr offset 2)) :: unpackLoop bufr rest (offset + 2)
  | .u32 :: rest, offset => .num (beVal (byteSlice bufr offset 4)) :: unpackLoop bufr rest (offset + 4)

/-- Model of `struct.unpack_from(template, buffer, offset)`: raises
`struct.error` when the buffer holds fewer than `offset + calcsize`
bytes, and otherwise decodes each big-endian field in order. -/
def unpack_from (tmpl : List FieldSpec) (bufr : List Nat) (offset : Nat) : Except PyErr (List FieldVal) :=
  if offset + calcsize tmpl ≤ bufr.length then .ok (unpackLoop bufr tmpl offset)
  else .error .structError

/-- Template `>4sHHHH` used for the offset table (`_Font._fields`). -/
def offsetTableTmpl : List FieldSpec := [.s4, .u16, .u16, .u16, .u16]

/-- Template `>4sLLL` used for one table-directory record
(`_Font._iter_table_records`). -/
def tableRecordTmpl : List FieldSpec := [.s4, .u32, .u32, .u32]

/-- An open binary file as wrapped by `_Stream`: its byte contents and the
current position of the operating-system read cursor. -/
structure PyFile where
  data : List Nat
  pos : Nat
  deriving DecidableEq, Repr

/-- Model of `file.seek(offset)`. -/
def PyFile.seek (f : PyFile) (offset : Nat) : PyFile :=
  { f with pos := offset }

/-- Model of `file.read(length)`: returns up to `length` bytes from the
cursor (fewer at end of file) and advances the cursor past them. -/
def PyFile.readBytes (f : PyFile) (length : Nat) : List Nat × PyFile :=
  let bs := (f.data.drop f.pos).take length
  (bs, { f with pos := f.pos + bs.length })

namespace Stream

/-- Model of `_Stream.read(offset, length)`: seek to `offset`, then read
`length` bytes. -/
def read (f : PyFile) (offset length : Nat) : List Nat × PyFile :=
  let f1 := f.seek offset
  f1.readBytes length

/-- Model of `_Stream.read_fields(template, offset)`: seek to `offset`,
read `calcsize template` bytes, and unpack them. -/
def read_fields (f : PyFile) (tmpl : List FieldSpec) (offset : Nat) : Except PyErr (List FieldVal) × PyFile :=
  let f1 := f.seek offset
  let r := f1.readBytes (calcsize tmpl)
  (unpack_from tmpl r.1 0, r.2)

end Stream

namespace Font

/-- Model of `_Font._fields`: the 5-tuple read from the offset table at
file offset 0 with template `>4sHHHH`.  The font's stream is freshly
opened, so only the file contents `data` matter. -/
def fields (data : List Nat) : Except PyErr (List FieldVal) :=
  (Stream.read_fields ⟨data, 0⟩ offsetTableTmpl 0).1

/-- Model of `_Font._table_count`: the second field of the offset table. -/
def table_count (data : List Nat) : Except PyErr Nat :=
  match fields data with
  | .error e => .error e
  | .ok fs =>
    match fs.get? 1 with
    | some (.num n) => .ok n
    | _ => .error .structError

/-- Decode table-directory entry `i` of `bufr` (reads the checksum field
but drops it, yielding `(tag, offset, length)`), as one loop iteration of
`_Font._iter_table_records`. -/
def tableRecordAt (bufr : List Nat) (i : Nat) : Except PyErr (List Nat × Nat × Nat) :=
  match unpack_from tableRecordTmpl bufr (i * 16) with
  | .error e => .error e
  | .ok [.bytes tag, .num _checksum, .num off, .num len] => .ok (tag, off, len)
  | .ok _ => .error .structError

/-- Run a fallible step over each list element in order, stopping at the
first raised exception, as a `for` loop over a Python generator does. -/
def exceptMap {α β : Type} (f : α → Except PyErr β) : List α → Except PyErr (List β)
  | [] => .ok []
  | a :: rest =>
    match f a with
    | .error e => .error e
    | .ok b =>
      match exceptMap f rest with
      | .error e => .error e
      | .ok bs => .ok (b :: bs)

/-- Model of `_Font._iter_table_records`: read the table directory
(`count * 16` bytes at offset 12) and decode each 16-byte entry with
template `>4sLLL`. -/
def iter_table_records (data : List Nat) : Except PyErr (List (List Nat × Nat × Nat)) :=
  match table_count data with
  | .error e => .error e
  | .ok count =>
    let bufr := (Stream.read ⟨data, 0⟩ 12 (count * 16)).1
    exceptMap (tableRecordAt bufr) (List.range count)

end Font

/-- A constructed table object.  Only the constructor arguments matter here:
`_TableFactory` raises `NotImplementedError` before ever constructing one,
so no code path below inspects a `PyTable`. -/
inductive PyTable where
  | mk (tag : List Nat) (offset length : Nat)
  deriving DecidableEq, Repr

/-- Model of `_TableFactory`: the body is `raise NotImplementedError`. -/
def _TableFactory (_tag : List Nat) (_offset _length : Nat) : Except PyErr PyTable :=
  .error .notImplementedError

/-- Model of `_NameTable.family_name`: the body is
`raise NotImplementedError`.  (Tables other than `name` have no
`family_name` attribute at all; that access is equally unreachable.) -/
def NameTable.family_name (_t : PyTable) : Except PyErr String :=
  .error .notImplementedError

/-- Byte values of the 4-byte table tag `name`. -/
def nameTag : List Nat := [110, 97, 109, 101]

namespace Font

/-- Model of `_Font._tables`: a dict from table tag to the table object
built by `_TableFactory` for each directory record.  The dict is modelled
as the association list of (tag, table) pairs in construction order. -/
def tables (data : List Nat) : Except PyErr (List (List Nat × PyTable)) :=
  match iter_table_records data with
  | .error e => .error e
  | .ok recs =>
    exceptMap (fun r =>
      match _TableFactory r.1 r.2.1 r.2.2 with
      | .error e => .error e
      | .ok t => .ok (r.1, t)) recs

/-- Model of `_Font.family_name`, i.e. `self._tables['name'].family_name`.
The dict lookup keeps the last-written value for a duplicated tag, hence
the lookup over the reversed association list; a missing key raises
`KeyError`. -/
def family_name (data : List Nat) : Except PyErr String :=
  match tables data with
  | .error e => .error e
  | .ok tbls =>
    match tbls.reverse.lookup nameTag with
    | none => .error .keyError
    | some t => NameTable.family_name t

end Font

/-- Lower-case an ASCII character, as Python `str.lower` does per
character. -/
def lowerChar (c : Char) : Char :=
  if 65 ≤ c.toNat ∧ c.toNat ≤ 90 then Char.ofNat (c.toNat + 32) else c

/-- Model of `str.lower()` on the ASCII file extensions compared here. -/
def pyLower (s : String) : String :=
  String.mk (s.data.map lowerChar)

/-- Model of `os.path.splitext(filename)[1]` for a bare filename (no
directory separators): the extension starts at the last dot, except that
leading dots of the filename never begin an extension. -/
def splitextExt (filename : String) : String :=
  let cs := filename.data
  match ((List.range cs.length).filter (fun i => cs.getD i ' ' = '.')).getLast? with
  | none => String.mk []
  | some i =>
    if (cs.take i).all (fun c => c = '.') then String.mk []
    else String.mk (cs.drop i)

/-- Test from `_iter_font_files_in`:
`file_ext.lower() in ('.otf', '.ttf')` for `file_ext` the extension of
`filename`. -/
def extOk (filename : String) : Bool :=
  [(".otf" : String), ".ttf"].contains (pyLower (splitextExt filename))

/-- Whether a path is absolute (POSIX): it begins with a slash. -/
def isabs (p : String) : Bool :=
  p.data.headD ' ' = '/'

/-- Model of the two-argument POSIX `os.path.join`. -/
def pjoin (a b : String) : String :=
  if isabs b then b
  else if a.data = [] ∨ a.data.getLastD ' ' = '/' then a ++ b
  else a ++ "/" ++ b

/-- Model of `os.path.abspath` relative to the process working directory
`cwd`; the `normpath` cleanup of redundant separators is not modelled, the
paths built here never contain any. -/
def abspath (cwd p : String) : String :=
  if isabs p then p else pjoin cwd p

/-- The external collaborators the module consults: `sys.platform`,
`os.environ.get('HOME')`, the working directory used by `os.path.abspath`,
`os.walk` (directory → list of (root, files) entries), and the behaviour
of `_Font` on the file at a given path — `(f.family_name, f.is_bold,
f.is_italic)` or the exception that attribute chain raises.  The `parse`
the in-repo `_Font` actually realises on given file contents is
`fontParse` below; the general field also covers hypothetical substitutes
for `_Font`. -/
structure Env where
  platform : String
  home : Option String
  cwd : String
  walk : String → List (String × List String)
  parse : String → Except PyErr (String × Bool × Bool)

/-- A font descriptor: `(family_name, is_bold, is_italic)`. -/
abbrev FontKey := String × Bool × Bool

/-- A Python dict keyed by font descriptor, modelled by its lookup
function. -/
def FontMap := FontKey → Option String

/-- The empty dict. -/
def dictEmpty : FontMap := fun _ => none

/-- Model of `fonts[key] = path`. -/
def dictSet (m : FontMap) (k : FontKey) (v : String) : FontMap :=
  fun q => if q = k then some v else m q

/-- Model of `fonts[key]`, raising `KeyError` when the key is absent. -/
def dictGet (m : FontMap) (k : FontKey) : Except PyErr String :=
  match m k with
  | some v => .ok v
  | none => .error .keyError

/-- Model of `FontFiles._os_x_font_directories`. -/
def _os_x_font_directories (home : Option String) : List String :=
  let base := [("/Library/Fonts" : String), "/Network/Library/Fonts", "/System/Library/Fonts"]
  match home with
  | none => base
  | some h => base ++ [pjoin (pjoin h ("Library")) ("Fonts"), pjoin h (".fonts")]

/-- Model of `FontFiles._windows_font_directories`: the body is
`raise NotImplementedError`. -/
def _windows_font_directories : Except PyErr (List String) :=
  .error .notImplementedError

/-- Model of `sys.platform.startswith(pre)`. -/
def startswith (s pre : String) : Bool :=
  List.isPrefixOf pre.data s.data

/-- Model of `FontFiles._font_directories`: dispatch on `sys.platform`,
raising `OSError('unsupported operating system')` for hosts that are
neither darwin nor win32. -/
def _font_directories (platform : String) (home : Option String) : Except PyErr (List String) :=
  if startswith platform ("darwin") then .ok (_os_x_font_directories home)
  else if startswith platform ("win32") then _windows_font_directories
  else .error (.osError ("unsupported operating system"))

/-- Output of consuming the `_iter_font_files_in` generator: the paths
passed to `_Font.open` in order, the `(key, path)` pairs yielded, and the
exception that ended the iteration early, if any. -/
structure ScanOut where
  opened : List String
  yields : List (FontKey × String)
  err : Option PyErr
  deriving DecidableEq, Repr

/-- The `(root, filename)` candidates an `os.walk` result supplies to the
scanner's inner loop, in order. -/
def walkCandidates (ws : List (String × List String)) : List (String × String) :=
  ws.flatMap (fun rf => rf.2.map (fun filename => (rf.1, filename)))

/-- Path of one scanner candidate:
`os.path.abspath(os.path.join(root, filename))`. -/
def candidatePath (env : Env) (root filename : String) : String :=
  abspath env.cwd (pjoin root filename)

/-- The filtering loop body of `FontFiles._iter_font_files_in` over the
flattened walk candidates: skip a filename whose lowered extension is not
`.otf`/`.ttf`; otherwise open the file and yield its descriptor and path,
an exception from the open or the attribute reads ending the generator. -/
def scanGo (env : Env) : List (String × String) → ScanOut
  | [] => ⟨[], [], none⟩
  | (root, filename) :: rest =>
    if extOk filename = false then scanGo env rest
    else
      let path := candidatePath env root filename
      match env.parse path with
      | .error e => ⟨[path], [], some e⟩
      | .ok key =>
        let r := scanGo env rest
        ⟨path :: r.opened, (key, path) :: r.yields, r.err⟩

/-- Model of `FontFiles._iter_font_files_in(directory)`, fully consumed. -/
def _iter_font_files_in (env : Env) (directory : String) : ScanOut :=
  scanGo env (walkCandidates (env.walk directory))

/-- Insert each yielded `(key, path)` pair into the dict in order, later
entries overwriting earlier ones. -/
def dictInsertAll (m : FontMap) (pairs : List (FontKey × String)) : FontMap :=
  pairs.foldl (fun acc kv => dictSet acc kv.1 kv.2) m

/-- The directory loop of `FontFiles._installed_fonts`: scan each
directory in turn, merging yielded pairs into `fonts`; an exception from a
scan propagates and abandons the build. -/
def installedGo (env : Env) : List String → FontMap → Except PyErr FontMap
  | [], fonts => .ok fonts
  | d :: rest, fonts =>
    let s := _iter_font_files_in env d
    let fonts2 := dictInsertAll fonts s.yields
    match s.err with
    | some e => .error e
    | none => installedGo env rest fonts2

/-- Model of `FontFiles._installed_fonts`. -/
def _installed_fonts (env : Env) : Except PyErr FontMap :=
  match _font_directories env.platform env.home with
  | .error e => .error e
  | .ok dirs => installedGo env dirs dictEmpty

/-- Model of `FontFiles.find`.  The class attribute `FontFiles._font_files`
is threaded explicitly: `st` is its value before the call and the second
component of the result its value after.  When the build raises, the
assignment to the attribute never happens and the exception propagates
with the attribute still `None`. -/
def find (env : Env) (st : Option FontMap) (family_name : String) (is_bold is_italic : Bool) :
    Except PyErr String × Option FontMap :=
  match st with
  | some m => (dictGet m (family_name, is_bold, is_italic), some m)
  | none =>
    match _installed_fonts env with
    | .error e => (.error e, none)
    | .ok m => (dictGet m (family_name, is_bold, is_italic), some m)

/-! Helper lemmas about byte slices and the fallible map. -/

theorem byteSlice_length (data : List Nat) (o l : Nat) (h : o + l ≤ data.length) :
    (byteSlice data o l).length = l := by
  simp only [byteSlice, List.length_take, List.length_drop]
  omega

theorem byteSlice_take (data : List Nat) (n o l : Nat) (h : o + l ≤ n) :
    byteSlice (data.take n) o l = byteSlice data o l := by
  unfold byteSlice
  rw [List.drop_take, List.take_take, min_eq_left (by omega)]

theorem byteSlice_byteSlice (data : List Nat) (m n o l : Nat) (h : o + l ≤ n) :
    byteSlice (byteSlice data m n) o l = byteSlice data (m + o) l := by
  unfold byteSlice
  rw [List.drop_take, List.take_take, min_eq_left (by omega), List.drop_drop]

theorem exceptMap_ok {α β : Type} (f : α → Except PyErr β) (g : α → β) (l : List α)
    (h : ∀ a ∈ l, f a = .ok (g a)) : Font.exceptMap f l = .ok (l.map g) := by
  induction l with
  | nil => rfl
  | cons a rest ih =>
    have ha : f a = .ok (g a) := h a (List.mem_cons_self a rest)
    have hrest := ih (fun b hb => h b (List.mem_cons_of_mem a hb))
    simp only [Font.exceptMap, ha, hrest, List.map_cons]

/-! Characterisation of the header and table-directory parse. -/

theorem fields_eq (data : List Nat) (h12 : 12 ≤ data.length) :
    Font.fields data = .ok [.bytes (byteSlice data 0 4), .num (beVal (byteSlice data 4 2)),
      .num (beVal (byteSlice data 6 2)), .num (beVal (byteSlice data 8 2)),
      .num (beVal (byteSlice data 10 2))] := by
  have hb : Font.fields data = unpack_from offsetTableTmpl (data.take 12) 0 := rfl
  have hlen : (data.take 12).length = 12 := by rw [List.length_take]; omega
  rw [hb]
  unfold unpack_from
  rw [if_pos (by rw [hlen]; decide)]
  have hloop : unpackLoop (data.take 12) offsetTableTmpl 0 =
      [.bytes (byteSlice (data.take 12) 0 4), .num (beVal (byteSlice (data.take 12) 4 2)),
       .num (beVal (byteSlice (data.take 12) 6 2)), .num (beVal (byteSlice (data.take 12) 8 2)),
       .num (beVal (byteSlice (data.take 12) 10 2))] := by
    simp only [offsetTableTmpl, unpackLoop]
  rw [hloop, byteSlice_take data 12 0 4 (by omega), byteSlice_take data 12 4 2 (by omega),
    byteSlice_take data 12 6 2 (by omega), byteSlice_take data 12 8 2 (by omega),
    byteSlice_take data 12 10 2 (by omega)]

theorem table_count_eq (data : List Nat) (h12 : 12 ≤ data.length) :
    Font.table_count data = .ok (beVal (byteSlice data 4 2)) := by
  unfold Font.table_count
  rw [fields_eq data h12]
  rfl

theorem tableRecordAt_eq (data : List Nat) (tc i : Nat) (hi : i < tc)
    (hlen : 12 + tc * 16 ≤ data.length) :
    Font.tableRecordAt (byteSlice data 12 (tc * 16)) i =
      .ok (byteSlice data (12 + i * 16) 4,
        beVal (byteSlice data (12 + i * 16 + 8) 4),
        beVal (byteSlice data (12 + i * 16 + 12) 4)) := by
  have hB : (byteSlice data 12 (tc * 16)).length = tc * 16 :=
    byteSlice_length data 12 (tc * 16) (by omega)
  unfold Font.tableRecordAt unpack_from
  rw [if_pos (by rw [hB]; show i * 16 + calcsize tableRecordTmpl ≤ tc * 16; norm_num [calcsize,
    tableRecordTmpl, FieldSpec.size]; omega)]
  have hloop : unpackLoop (byteSlice data 12 (tc * 16)) tableRecordTmpl (i * 16) =
      [.bytes (byteSlice (byteSlice data 12 (tc * 16)) (i * 16) 4),
       .num (beVal (byteSlice (byteSlice data 12 (tc * 16)) (i * 16 + 4) 4)),
       .num (beVal (byteSlice (byteSlice data 12 (tc * 16)) (i * 16 + 8) 4)),
       .num (beVal (byteSlice (byteSlice data 12 (tc * 16)) (i * 16 + 12) 4))] := by
    simp only [tableRecordTmpl, unpackLoop]
  rw [hloop, byteSlice_byteSlice data 12 (tc * 16) (i * 16) 4 (by omega),
    byteSlice_byteSlice data 12 (tc * 16) (i * 16 + 8) 4 (by omega),
    byteSlice_byteSlice data 12 (tc * 16) (i * 16 + 12) 4 (by omega)]
  have e1 : 12 + (i * 16 + 8) = 12 + i * 16 + 8 := by omega
  have e2 : 12 + (i * 16 + 12) = 12 + i * 16 + 12 := by omega
  rw [e1, e2]

/-- C1: every font parse follows the specified algorithm — the 12-byte
offset table is read at file offset 0 with template `>4sHHHH` (4-byte
version tag plus four big-endian u16 fields), the table count is the
second field, the `table_count * 16`-byte directory is read at offset 12,
and each 16-byte entry decodes big-endian as (tag, checksum, offset,
length) with the checksum dropped, yielding one (tag, offset, length)
record per table. -/
theorem offset_table_and_directory_parse (data : List Nat) (tc : Nat)
    (htc : tc = beVal (byteSlice data 4 2))
    (hlen : 12 + tc * 16 ≤ data.length) :
    Font.fields data = .ok [.bytes (byteSlice data 0 4), .num tc,
      .num (beVal (byteSlice data 6 2)), .num (beVal (byteSlice data 8 2)),
      .num (beVal (byteSlice data 10 2))] ∧
    Font.table_count data = .ok tc ∧
    Font.iter_table_records data = .ok ((List.range tc).map (fun i =>
      (byteSlice data (12 + i * 16) 4,
       beVal (byteSlice data (12 + i * 16 + 8) 4),
       beVal (byteSlice data (12 + i * 16 + 12) 4)))) := by
  have h12 : 12 ≤ data.length := by omega
  have hcount : Font.table_count data = .ok tc := by rw [htc]; exact table_count_eq data h12
  refine ⟨?_, hcount, ?_⟩
  · rw [fields_eq data h12, htc]
  · unfold Font.iter_table_records
    rw [hcount]
    show Font.exceptMap (Font.tableRecordAt (byteSlice data 12 (tc * 16))) (List.range tc) = _
    exact exceptMap_ok _ _ _ (fun i hi =>
      tableRecordAt_eq data tc i (List.mem_range.mp hi) hlen)

/-- Bytes of a minimal sfnt file: version 00010000, table count 1, and a
single directory record with tag `name`, offset 40, length 6. -/
def fontNameOnly : List Nat :=
  [0, 1, 0, 0, 0, 1, 0, 16, 0, 0, 0, 0,
   110, 97, 109, 101, 0, 0, 0, 0, 0, 0, 0, 40, 0, 0, 0, 6]

/-- C1 witness: the parse of the concrete 28-byte file `fontNameOnly`. -/
theorem offset_table_and_directory_parse_witness :
    Font.iter_table_records fontNameOnly = .ok [([110, 97, 109, 101], 40, 6)] :=
  ((offset_table_and_directory_parse fontNameOnly 1 (by decide) (by decide)).2.2).trans
    (by decide)

/-- C9: a read addressed by absolute offset returns the same bytes
whatever the stream's cursor position, so for any two read requests (raw
reads or struct-template reads) the values returned do not depend on the
order in which the two are performed. -/
theorem stream_reads_independent (data : List Nat) (p q o len o2 l2 : Nat)
    (tmpl : List FieldSpec) :
    ((Stream.read ⟨data, p⟩ o len).1 = (Stream.read ⟨data, q⟩ o len).1) ∧
    ((Stream.read_fields ⟨data, p⟩ tmpl o).1 = (Stream.read_fields ⟨data, q⟩ tmpl o).1) ∧
    ((Stream.read (Stream.read ⟨data, p⟩ o2 l2).2 o len).1 = (Stream.read ⟨data, p⟩ o len).1) ∧
    ((Stream.read_fields (Stream.read ⟨data, p⟩ o2 l2).2 tmpl o).1 =
      (Stream.read_fields ⟨data, p⟩ tmpl o).1) ∧
    ((Stream.read (Stream.read_fields ⟨data, p⟩ tmpl o2).2 o len).1 =
      (Stream.read ⟨data, p⟩ o len).1) :=
  ⟨rfl, rfl, rfl, rfl, rfl⟩

/-! Example environments used by the witnesses. -/

/-- Host with neither a darwin nor a win32 platform string and no fonts. -/
def envLinux : Env :=
  { platform := "linux2", home := none, cwd := "/",
    walk := fun _ => [], parse := fun _ => .error .keyError }

/-- Darwin host whose only font directory entry is a regular Arial file. -/
def envArial : Env :=
  { platform := "darwin", home := none, cwd := "/",
    walk := fun d => if d = ("/Library/Fonts") then [(("/Library/Fonts"), [("Arial.ttf")])] else [],
    parse := fun _ => .ok (("Arial"), false, false) }

/-- The registry map the build produces on `envArial`. -/
def mArial : FontMap :=
  dictSet dictEmpty (("Arial"), false, false) ("/Library/Fonts/Arial.ttf")

/-- Darwin host with one font file whose parse raises. -/
def envBadParse : Env :=
  { platform := "darwin", home := none, cwd := "/",
    walk := fun d => if d = ("/Library/Fonts") then [(("/Library/Fonts"), [("Bad.ttf")])] else [],
    parse := fun _ => .error .notImplementedError }

/-- C5: on a host operating system that is neither darwin nor win32,
`_font_directories` raises `OSError('unsupported operating system')`
rather than returning any list, and a first call to `find` surfaces that
failure at registry-build time. -/
theorem unsupported_platform_error (env : Env)
    (h1 : startswith env.platform ("darwin") = false)
    (h2 : startswith env.platform ("win32") = false) :
    _font_directories env.platform env.home =
      .error (.osError ("unsupported operating system")) ∧
    ∀ (fam : String) (b i : Bool),
      find env none fam b i = (.error (.osError ("unsupported operating system")), none) := by
  have hdir : _font_directories env.platform env.home =
      .error (.osError ("unsupported operating system")) := by
    simp [_font_directories, h1, h2]
  refine ⟨hdir, fun fam b i => ?_⟩
  unfold find _installed_fonts
  rw [hdir]

/-- C5 witness: the failure on the concrete host `envLinux`. -/
theorem unsupported_platform_error_witness :
    _font_directories envLinux.platform envLinux.home =
      .error (.osError ("unsupported operating system")) ∧
    find envLinux none ("Arial") false false =
      (.error (.osError ("unsupported operating system")), none) :=
  ⟨(unsupported_platform_error envLinux (by decide) (by decide)).1,
   (unsupported_platform_error envLinux (by decide) (by decide)).2 ("Arial") false false⟩

/-- C2: the first call to `find` builds the map and stores it, and every
subsequent call — with any arguments and whatever the installed fonts look
like by then (`env2` is arbitrary) — answers from the stored map without
scanning. -/
theorem registry_built_once (env : Env) (m : FontMap) (fam : String) (b i : Bool)
    (h : _installed_fonts env = .ok m) :
    find env none fam b i = (dictGet m (fam, b, i), some m) ∧
    ∀ (env2 : Env) (fam2 : String) (b2 i2 : Bool),
      find env2 (some m) fam2 b2 i2 = (dictGet m (fam2, b2, i2), some m) := by
  refine ⟨?_, fun env2 fam2 b2 i2 => rfl⟩
  unfold find
  rw [h]

/-- C2 witness: on `envArial` the first call builds `mArial`; a second
call against the changed host `envLinux` (no fonts installed any more)
still answers from `mArial`. -/
theorem registry_built_once_witness :
    find envArial none ("Arial") false false =
      (.ok ("/Library/Fonts/Arial.ttf"), some mArial) ∧
    find envLinux (some mArial) ("Arial") false false =
      (.ok ("/Library/Fonts/Arial.ttf"), some mArial) := by
  have h := registry_built_once envArial mArial ("Arial") false false (by rfl)
  refine ⟨?_, ?_⟩
  · rw [h.1]
    rfl
  · rw [h.2 envLinux ("Arial") false false]
    rfl

/-- C6: with the registry map already built, `find` raises `KeyError` when
the descriptor has no entry and returns the stored path when it has one. -/
theorem find_lookup_after_build (env : Env) (m : FontMap) (fam : String) (b i : Bool) :
    (m (fam, b, i) = none → find env (some m) fam b i = (.error .keyError, some m)) ∧
    ∀ p, m (fam, b, i) = some p → find env (some m) fam b i = (.ok p, some m) := by
  constructor
  · intro hnone
    show (dictGet m (fam, b, i), some m) = ((.error .keyError : Except PyErr String), some m)
    unfold dictGet
    rw [hnone]
  · intro p hp
    show (dictGet m (fam, b, i), some m) = ((.ok p : Except PyErr String), some m)
    unfold dictGet
    rw [hp]

/-- C6 witness: lookups against the concrete map `mArial`. -/
theorem find_lookup_after_build_witness :
    find envLinux (some mArial) ("Arial") false false =
      (.ok ("/Library/Fonts/Arial.ttf"), some mArial) ∧
    find envLinux (some mArial) ("Helvetica") false false =
      (.error .keyError, some mArial) :=
  ⟨(find_lookup_after_build envLinux mArial ("Arial") false false).2
      ("/Library/Fonts/Arial.ttf") (by decide),
   (find_lookup_after_build envLinux mArial ("Helvetica") false false).1 (by decide)⟩

/-- C10: when the registry build raises, `find` propagates the exception
and the cache attribute stays `None`, so a later call (against any
environment) behaves exactly like a fresh first call and re-attempts the
full build. -/
theorem failed_build_leaves_cache_unset (env : Env) (e : PyErr) (fam : String) (b i : Bool)
    (h : _installed_fonts env = .error e) :
    find env none fam b i = (.error e, none) ∧
    ∀ (env2 : Env) (fam2 : String) (b2 i2 : Bool),
      find env2 (find env none fam b i).2 fam2 b2 i2 = find env2 none fam2 b2 i2 := by
  have h1 : find env none fam b i = (.error e, none) := by
    unfold find
    rw [h]
  exact ⟨h1, fun env2 fam2 b2 i2 => by rw [h1]⟩

/-- C10 witness: a parse failure on `envBadParse` aborts the first build,
and the second call re-runs the build (here against `envArial`, where it
succeeds). -/
theorem failed_build_leaves_cache_unset_witness :
    find envBadParse none ("Arial") false false = (.error .notImplementedError, none) ∧
    find envArial (find envBadParse none ("Arial") false false).2 ("Arial") false false =
      find envArial none ("Arial") false false := by
  have h := failed_build_leaves_cache_unset envBadParse .notImplementedError
    ("Arial") false false (by rfl)
  exact ⟨h.1, h.2 envArial ("Arial") false false⟩

/-! Last-write-wins characterisation of the registry build (C3). -/

/-- The value the last scanned pair with key `k` wrote, if any. -/
def lastWrite (pairs : List (FontKey × String)) (k : FontKey) : Option String :=
  pairs.foldl (fun acc kv => if kv.1 = k then some kv.2 else acc) none

/-- All pairs the build harvests, in scan order: the scanner's yields over
each platform directory in turn. -/
def allYields (env : Env) : List (FontKey × String) :=
  match _font_directories env.platform env.home with
  | .error _ => []
  | .ok dirs => dirs.flatMap (fun d => (_iter_font_files_in env d).yields)

theorem lastWrite_fold (pairs : List (FontKey × String)) (k : FontKey) (acc : Option String) :
    pairs.foldl (fun a kv => if kv.1 = k then some kv.2 else a) acc =
      (lastWrite pairs k).or acc := by
  induction pairs generalizing acc with
  | nil => rfl
  | cons kv rest ih =>
    show rest.foldl _ (if kv.1 = k then some kv.2 else acc) = _
    rw [ih]
    have h2 : lastWrite (kv :: rest) k =
        (lastWrite rest k).or (if kv.1 = k then some kv.2 else none) :=
      ih (if kv.1 = k then some kv.2 else none)
    rw [h2]
    cases lastWrite rest k with
    | some v => rfl
    | none =>
      by_cases hk : kv.1 = k
      · simp [hk]
      · simp [hk]

theorem dictInsertAll_apply (m : FontMap) (pairs : List (FontKey × String)) (k : FontKey) :
    dictInsertAll m pairs k = (lastWrite pairs k).or (m k) := by
  induction pairs generalizing m with
  | nil => rfl
  | cons kv rest ih =>
    show dictInsertAll (dictSet m kv.1 kv.2) rest k = _
    rw [ih]
    have h2 : lastWrite (kv :: rest) k =
        (lastWrite rest k).or (if kv.1 = k then some kv.2 else none) :=
      lastWrite_fold rest k (if kv.1 = k then some kv.2 else none)
    rw [h2]
    cases lastWrite rest k with
    | some v => rfl
    | none =>
      show dictSet m kv.1 kv.2 k = ((if kv.1 = k then some kv.2 else none)).or (m k)
      by_cases hk : kv.1 = k
      · subst hk
        simp [dictSet]
      · simp [dictSet, hk, Ne.symm hk]

theorem lastWrite_append (p q : List (FontKey × String)) (k : FontKey) :
    lastWrite (p ++ q) k = (lastWrite q k).or (lastWrite p k) := by
  unfold lastWrite
  rw [List.foldl_append]
  exact lastWrite_fold q k _

theorem installedGo_cons (env : Env) (d : String) (rest : List String) (fonts : FontMap) :
    installedGo env (d :: rest) fonts =
      match (_iter_font_files_in env d).err with
      | some e => .error e
      | none => installedGo env rest (dictInsertAll fonts (_iter_font_files_in env d).yields) :=
  rfl

theorem installedGo_apply (env : Env) (dirs : List String) (fonts m : FontMap)
    (h : installedGo env dirs fonts = .ok m) (k : FontKey) :
    m k = (lastWrite (dirs.flatMap (fun d => (_iter_font_files_in env d).yields)) k).or
      (fonts k) := by
  induction dirs generalizing fonts with
  | nil =>
    have hm : fonts = m := by
      injection h
    subst hm
    rfl
  | cons d rest ih =>
    rw [installedGo_cons] at h
    cases hserr : (_iter_font_files_in env d).err with
    | some e =>
      rw [hserr] at h
      cases h
    | none =>
      rw [hserr] at h
      have hrest := ih (dictInsertAll fonts (_iter_font_files_in env d).yields) h
      rw [hrest, dictInsertAll_apply, List.flatMap_cons, lastWrite_append, Option.or_assoc]

/-- C3: whenever the registry build succeeds, every descriptor's entry in
the final map is exactly the path written by the last scanned pair for
that descriptor — later files overwrite earlier ones, and a descriptor no
file yielded has no entry. -/
theorem registry_last_write_wins (env : Env) (m : FontMap)
    (h : _installed_fonts env = .ok m) (k : FontKey) :
    m k = lastWrite (allYields env) k := by
  unfold _installed_fonts at h
  cases hdir : _font_directories env.platform env.home with
  | error e =>
    rw [hdir] at h
    cases h
  | ok dirs =>
    rw [hdir] at h
    have happ := installedGo_apply env dirs dictEmpty m h k
    unfold allYields
    rw [hdir, happ]
    cases lastWrite (dirs.flatMap (fun d => (_iter_font_files_in env d).yields)) k with
    | some v => rfl
    | none => rfl

/-- Darwin host whose font directory holds two files that parse to the
same descriptor. -/
def envDup : Env :=
  { platform := "darwin", home := none, cwd := "/",
    walk := fun d =>
      if d = ("/Library/Fonts") then [(("/Library/Fonts"), [("a.ttf"), ("b.ttf")])] else [],
    parse := fun _ => .ok (("Dup"), false, false) }

/-- The registry map the build produces on `envDup`. -/
def mDup : FontMap :=
  dictSet (dictSet dictEmpty (("Dup"), false, false) ("/Library/Fonts/a.ttf"))
    (("Dup"), false, false) ("/Library/Fonts/b.ttf")

/-- C3 witness: on `envDup` the registry keeps the later-scanned path. -/
theorem registry_last_write_wins_witness :
    mDup (("Dup"), false, false) = some ("/Library/Fonts/b.ttf") ∧
    lastWrite (allYields envDup) (("Dup"), false, false) =
      some ("/Library/Fonts/b.ttf") := by
  have h := registry_last_write_wins envDup mDup (by rfl) (("Dup"), false, false)
  exact ⟨h.trans (by decide), by decide⟩

/-! The scan-abort behaviour (C4). -/

/-- Darwin host whose font directory holds a corrupt font scanned before a
valid one. -/
def envCorrupt : Env :=
  { platform := "darwin", home := none, cwd := "/",
    walk := fun d =>
      if d = ("/Library/Fonts") then [(("/Library/Fonts"), [("bad.ttf"), ("good.ttf")])] else [],
    parse := fun p =>
      if p = ("/Library/Fonts/good.ttf") then .ok (("Good"), false, false)
      else .error .structError }

/-- C4 counterexample: on `envCorrupt` the directory holds one corrupt and
one valid font file, yet the scan yields no entry at all — not the valid
file's entry — and its exception aborts the whole registry build. -/
theorem scan_abort_counterexample :
    extOk ("bad.ttf") = true ∧
    extOk ("good.ttf") = true ∧
    envCorrupt.parse ("/Library/Fonts/good.ttf") = .ok (("Good"), false, false) ∧
    envCorrupt.parse ("/Library/Fonts/bad.ttf") = .error .structError ∧
    (_iter_font_files_in envCorrupt ("/Library/Fonts")).yields = [] ∧
    (_iter_font_files_in envCorrupt ("/Library/Fonts")).err = some .structError ∧
    _installed_fonts envCorrupt = .error .structError :=
  ⟨by decide, by decide, by decide, by decide, by decide, by decide, by rfl⟩

/-- C4 amended: a candidate file whose open or parse raises ends the scan
at that file — the exception propagates, and no later file of the walk
(valid or not) is opened or yielded. -/
theorem scan_aborts_on_parse_failure (env : Env) (root filename : String)
    (rest : List (String × String)) (e : PyErr)
    (hext : extOk filename = true)
    (hfail : env.parse (candidatePath env root filename) = .error e) :
    scanGo env ((root, filename) :: rest) =
      ⟨[candidatePath env root filename], [], some e⟩ := by
  simp [scanGo, hext, hfail]

/-- C4 amended witness: on `envCorrupt` the scan stops at `bad.ttf`
without touching `good.ttf`. -/
theorem scan_aborts_on_parse_failure_witness :
    scanGo envCorrupt [(("/Library/Fonts"), ("bad.ttf")), (("/Library/Fonts"), ("good.ttf"))] =
      ⟨[("/Library/Fonts/bad.ttf")], [], some .structError⟩ := by
  have h := scan_aborts_on_parse_failure envCorrupt ("/Library/Fonts") ("bad.ttf")
    [(("/Library/Fonts"), ("good.ttf"))] .structError (by decide) (by decide)
  exact h.trans (by decide)

/-! The `family_name` stubs (C7). -/

/-- Bytes of a minimal sfnt file whose single directory record has tag
`head` (no `name` table). -/
def fontHeadOnly : List Nat :=
  [0, 1, 0, 0, 0, 1, 0, 16, 0, 0, 0, 0,
   104, 101, 97, 100, 0, 0, 0, 0, 0, 0, 0, 40, 0, 0, 0, 54]

/-- Bytes of a minimal sfnt file with an empty table directory. -/
def fontNoTables : List Nat :=
  [0, 1, 0, 0, 0, 0, 0, 16, 0, 0, 0, 0]

/-- C7: evaluating `family_name` on concrete fonts.  With a `name` table
present in the directory, the call raises `NotImplementedError` out of
`_TableFactory` instead of delegating to a name-table decoder; with a
directory lacking `name` it likewise raises `NotImplementedError` unless
the directory is completely empty, in which case the dict lookup raises
`KeyError`. -/
theorem family_name_stub_behaviour :
    Font.iter_table_records fontNameOnly = .ok [(nameTag, 40, 6)] ∧
    Font.family_name fontNameOnly = .error .notImplementedError ∧
    Font.iter_table_records fontHeadOnly = .ok [([104, 101, 97, 100], 40, 54)] ∧
    Font.family_name fontHeadOnly = .error .notImplementedError ∧
    Font.iter_table_records fontNoTables = .ok [] ∧
    Font.family_name fontNoTables = .error .keyError :=
  ⟨by decide, by decide, by decide, by decide, by decide, by decide⟩

/-! The directory scanner on the real font parser (C8). -/

theorem isabs_append (a s : String) (h : isabs a = true) : isabs (a ++ s) = true := by
  simp only [isabs, decide_eq_true_eq] at *
  rw [String.data_append]
  cases hd : a.data with
  | nil => rw [hd] at h; simp at h
  | cons c cs => rw [hd] at h; simpa using h

theorem abspath_isabs (cwd p : String) (h : isabs cwd = true) :
    isabs (abspath cwd p) = true := by
  unfold abspath pjoin
  by_cases hp : isabs p
  · simp [hp]
  · simp only [hp, Bool.false_eq_true, if_false, if_true]
    by_cases hmid : cwd.data = [] ∨ cwd.data.getLastD ' ' = '/'
    · simp only [hmid, if_true]
      exact isabs_append cwd p h
    · simp only [hmid, if_false]
      exact isabs_append (cwd ++ "/") p (isabs_append cwd ("/") h)

/-- Model of the body of the `with` block in `_iter_font_files_in` on the
in-repo `_Font`: the tuple `(f.family_name, f.is_bold, f.is_italic)` is
evaluated left to right over the font opened from the file's bytes
`contents path`.  `f.family_name` always raises (`struct.error`,
`KeyError` or `NotImplementedError`, see `family_name_always_raises`);
were it ever to return, the `f.is_bold` access would raise
`AttributeError`, since `_Font` defines no such attribute. -/
def fontParse (contents : String → List Nat) (path : String) : Except PyErr FontKey :=
  match Font.family_name (contents path) with
  | .error e => .error e
  | .ok _fam => .error .attributeError

/-- An environment whose `parse` is the behaviour the in-repo `_Font`
realises on a file system serving `contents path` as each file's bytes. -/
def realEnv (platform : String) (home : Option String) (cwd : String)
    (walk : String → List (String × List String)) (contents : String → List Nat) : Env :=
  { platform := platform, home := home, cwd := cwd, walk := walk,
    parse := fontParse contents }

theorem family_name_always_raises (data : List Nat) :
    ∃ e, Font.family_name data = .error e := by
  unfold Font.family_name Font.tables
  cases hrec : Font.iter_table_records data with
  | error e => exact ⟨e, rfl⟩
  | ok recs =>
    cases recs with
    | nil => exact ⟨.keyError, rfl⟩
    | cons r rest => exact ⟨.notImplementedError, rfl⟩

theorem fontParse_raises (contents : String → List Nat) (path : String) :
    ∃ e, fontParse contents path = .error e := by
  obtain ⟨e, he⟩ := family_name_always_raises (contents path)
  refine ⟨e, ?_⟩
  unfold fontParse
  rw [he]

theorem scanGo_all_fail (env : Env)
    (hfail : ∀ path, ∃ e, env.parse path = .error e) (cs : List (String × String)) :
    (scanGo env cs).yields = [] ∧
    (scanGo env cs).opened = ((cs.find? (fun c => extOk c.2)).elim []
      (fun c => [candidatePath env c.1 c.2])) ∧
    ((scanGo env cs).err = none ↔ cs.find? (fun c => extOk c.2) = none) := by
  induction cs with
  | nil => exact ⟨rfl, rfl, Iff.intro (fun _ => rfl) (fun _ => rfl)⟩
  | cons c rest ih =>
    obtain ⟨root, filename⟩ := c
    by_cases hext : extOk filename = true
    · obtain ⟨e, he⟩ := hfail (candidatePath env root filename)
      have hstep : scanGo env ((root, filename) :: rest) =
          ⟨[candidatePath env root filename], [], some e⟩ := by
        simp [scanGo, hext, he]
      have hfind : ((root, filename) :: rest).find? (fun c => extOk c.2) =
          some (root, filename) := List.find?_cons_of_pos _ hext
      rw [hstep, hfind]
      exact ⟨rfl, rfl, by simp⟩
    · have hextf : extOk filename = false := by
        cases hb : extOk filename
        · rfl
        · exact absurd hb hext
      have hstep : scanGo env ((root, filename) :: rest) = scanGo env rest := by
        simp [scanGo, hextf]
      have hfind : ((root, filename) :: rest).find? (fun c => extOk c.2) =
          rest.find? (fun c => extOk c.2) :=
        List.find?_cons_of_neg _ (by simp [hextf])
      rw [hstep, hfind]
      exact ih

/-- Host whose font directory mixes matching and non-matching extensions,
each file serving the well-formed bytes `fontNameOnly`, parsed by the
in-repo `_Font`. -/
def envReal : Env :=
  realEnv ("darwin") none ("/")
    (fun d =>
      if d = ("/Library/Fonts") then
        [(("/Library/Fonts"), [("b.txt"), ("x.ttf"), ("y.ttf")])]
      else [])
    (fun _ => fontNameOnly)

/-- C8 counterexample: on `envReal` the walk holds two `.ttf` files and
one `.txt` file, yet only the first matching file is opened and nothing
at all is yielded — `_Font.family_name` raises `NotImplementedError` out
of the `_TableFactory` stub, so the scan aborts there and the second
matching file is never opened, contradicting the claim that exactly the
matching files are opened and yielded. -/
theorem scanner_filters_extensions_counterexample :
    extOk ("x.ttf") = true ∧
    extOk ("y.ttf") = true ∧
    extOk ("b.txt") = false ∧
    Font.family_name fontNameOnly = .error .notImplementedError ∧
    (_iter_font_files_in envReal ("/Library/Fonts")).opened = [("/Library/Fonts/x.ttf")] ∧
    (_iter_font_files_in envReal ("/Library/Fonts")).yields = [] ∧
    (_iter_font_files_in envReal ("/Library/Fonts")).err = some .notImplementedError :=
  ⟨by decide, by decide, by decide, by decide, by decide, by decide, by decide⟩

/-- C8 amended: under the in-repo `_Font` (whose parse always raises —
the table factory is an unimplemented stub and `_Font` has no
`is_bold`/`is_italic` attributes), every file whose extension is not
`.otf`/`.ttf` after case-insensitive comparison is skipped without being
opened; only the first file in walk order with a matching extension is
opened — at its absolute path when the working directory is absolute —
its exception ends the scan, and nothing is ever yielded; the scan ends
cleanly only when no file matches. -/
theorem scanner_opens_only_first_match (platform : String) (home : Option String)
    (cwd : String) (walk : String → List (String × List String))
    (contents : String → List Nat) (directory : String) :
    (_iter_font_files_in (realEnv platform home cwd walk contents) directory).yields = [] ∧
    (_iter_font_files_in (realEnv platform home cwd walk contents) directory).opened =
      (((walkCandidates (walk directory)).find? (fun c => extOk c.2)).elim []
        (fun c => [candidatePath (realEnv platform home cwd walk contents) c.1 c.2])) ∧
    ((_iter_font_files_in (realEnv platform home cwd walk contents) directory).err = none ↔
      (walkCandidates (walk directory)).find? (fun c => extOk c.2) = none) ∧
    (isabs cwd = true →
      ∀ p ∈ (_iter_font_files_in (realEnv platform home cwd walk contents) directory).opened,
        isabs p = true) := by
  have h := scanGo_all_fail (realEnv platform home cwd walk contents)
    (fun path => fontParse_raises contents path)
    (walkCandidates (walk directory))
  refine ⟨h.1, h.2.1, h.2.2, ?_⟩
  intro hcwd p hp
  have hp2 : p ∈ (scanGo (realEnv platform home cwd walk contents)
      (walkCandidates (walk directory))).opened := hp
  rw [h.2.1] at hp2
  cases hfind : (walkCandidates (walk directory)).find? (fun c => extOk c.2) with
  | none =>
    rw [hfind] at hp2
    cases hp2
  | some c =>
    rw [hfind] at hp2
    have hpc := List.mem_singleton.mp hp2
    subst hpc
    exact abspath_isabs cwd (pjoin c.1 c.2) hcwd

/-- C8 amended witness: on `envReal` nothing is yielded, exactly the
first matching file `x.ttf` is opened, and its path is absolute. -/
theorem scanner_opens_only_first_match_witness :
    (_iter_font_files_in envReal ("/Library/Fonts")).yields = [] ∧
    (_iter_font_files_in envReal ("/Library/Fonts")).opened = [("/Library/Fonts/x.ttf")] ∧
    isabs ("/Library/Fonts/x.ttf") = true := by
  have h := scanner_opens_only_first_match ("darwin") none ("/")
    (fun d =>
      if d = ("/Library/Fonts") then
        [(("/Library/Fonts"), [("b.txt"), ("x.ttf"), ("y.ttf")])]
      else [])
    (fun _ => fontNameOnly) ("/Library/Fonts")
  refine ⟨h.1, h.2.1.trans (by decide), ?_⟩
  exact h.2.2.2 (by decide) ("/Library/Fonts/x.ttf") (by decide)

end Fonts
